import Mathlib

/-!
Verification of the drealcorse-reports admin REST services
(`drealcorsereports/views/admin.py`) against the design specification.

The data model and the request-handling pipeline are shallowly embedded:
records are Lean structures, the database session is an explicit list of
records, HTTP outcomes are an inductive type, and the remote
`is_user_admin_on_layer` authorization check is an explicit oracle
parameter, mirroring how the tests patch it with a function from
(user id, layer id) to a boolean.
-/

namespace DrealcorseReports

/-- Report model record, after `drealcorsereports.models.reports.ReportModel`
as used by the admin views and their tests. Record ids are modelled as
natural numbers (the integer value of a UUID), timestamps as natural
numbers, and the free-form custom field schema as an opaque string. -/
structure ReportModel where
  id : Nat
  name : String
  layer_id : String
  custom_field_schema : String
  created_by : String
  created_at : Nat
  updated_by : String
  updated_at : Nat
  deriving Repr, DecidableEq

/-- Modelled from the spec: `drealcorsereports.security.Rule` is not under
the embedded sources (only its use in `get_layers` is). Per the spec, a rule
is parsed from a remote ACL entry whose key has the form `mode:layer` and
whose value is a comma/semicolon-separated principal list; layer patterns
support the wildcard `*`, and the distinguished principal `anyone` grants to
every caller. -/
structure Rule where
  mode : String
  layerPattern : String
  principals : List String
  deriving Repr, DecidableEq

/-- Splits an ACL document value on semicolons and commas into principal
names, dropping empty fragments. -/
def parsePrincipals (v : String) : List String :=
  (((v.splitOn ";").map (fun part => part.splitOn ",")).flatten).filter
    (fun p => p != "")

/-- Modelled from the spec: `Rule.parse` turns one ACL document entry
(key, value) into a rule, splitting the key at the first colon into the
mode and the layer pattern. -/
def Rule.parse (key value : String) : Rule :=
  match key.splitOn ":" with
  | [] => ⟨"", "", parsePrincipals value⟩
  | [m] => ⟨m, "", parsePrincipals value⟩
  | m :: rest => ⟨m, String.intercalate ":" rest, parsePrincipals value⟩

/-- Layer pattern match: the wildcard pattern matches every layer name, any
other pattern matches exactly itself. -/
def Rule.patternMatches (r : Rule) (layerName : String) : Bool :=
  r.layerPattern == "*" || r.layerPattern == layerName

/-- Mode `r` (read) is the mode that grants access to see a layer. -/
def Rule.grantsAccess (r : Rule) : Bool :=
  r.mode == "r"

/-- Modelled from the spec: `Rule.match` (named `matches` here because
`match` is a Lean keyword) returns true when the rule mode grants access,
the rule layer pattern matches the layer name, and one of the configured
principals is the distinguished `anyone` principal or belongs to the caller
effective principal set. -/
def Rule.matches (r : Rule) (layerName : String) (principals : List String) : Bool :=
  r.grantsAccess && r.patternMatches layerName &&
    r.principals.any (fun p => p == "anyone" || principals.contains p)

/-- C2: for every layer name and every caller principal set, the rule
matcher returns true iff the rule mode grants access, the rule layer
pattern (the wildcard included) matches the layer name, and some configured
principal of the rule — the distinguished anyone principal included — is a
member of the caller effective principal set. -/
theorem rule_match_characterization (r : Rule) (layerName : String)
    (principals : List String) :
    r.matches layerName principals = true ↔
      (r.mode = "r" ∧ (r.layerPattern = "*" ∨ r.layerPattern = layerName) ∧
        ∃ p ∈ r.principals, p = "anyone" ∨ p ∈ principals) := by
  simp [Rule.matches, Rule.grantsAccess, Rule.patternMatches,
    List.any_eq_true, and_assoc]

/-! ## UUID parsing

`AdminReportModelView.__init__` runs `UUID(self.request.matchdict.get("id"))`
on the raw id path segment. The CPython constructor removes every `urn:` and
`uuid:` occurrence, strips surrounding braces, removes every hyphen, requires
exactly 32 remaining characters and feeds them to `int(hex, 16)`, raising
ValueError otherwise. -/

/-- Hexadecimal digit test. -/
def isHexDigit (c : Char) : Bool :=
  c.isDigit || (('a' ≤ c) && (c ≤ 'f')) || (('A' ≤ c) && (c ≤ 'F'))

/-- Numeric value of a hexadecimal digit. -/
def hexVal (c : Char) : Nat :=
  if c.isDigit then c.toNat - '0'.toNat
  else if ('a' ≤ c) && (c ≤ 'f') then c.toNat - 'a'.toNat + 10
  else c.toNat - 'A'.toNat + 10

/-- Whitespace accepted around an integer literal by the CPython int
constructor, modelled over the ASCII whitespace characters. -/
def isPyWhitespace (c : Char) : Bool :=
  c == ' ' || c == '\t' || c == '\n' || c == '\r' || c == '\x0b' || c == '\x0c'

/-- Digit-run tail of a CPython integer literal: single underscores are
allowed between digits, accumulating the base-16 value. -/
def pyHexRun : Nat → List Char → Option Nat
  | acc, [] => some acc
  | acc, '_' :: c :: rest =>
      if isHexDigit c then pyHexRun (acc * 16 + hexVal c) rest else none
  | acc, c :: rest =>
      if isHexDigit c then pyHexRun (acc * 16 + hexVal c) rest else none

/-- Nonempty digit run: the first character must be a hexadecimal digit,
then `pyHexRun` allows single underscores between digits. -/
def pyHexDigits (cs : List Char) : Option Nat :=
  match cs with
  | [] => none
  | c :: rest => if isHexDigit c then pyHexRun (hexVal c) rest else none

/-- Modelled after CPython `int(s, 16)`: optional surrounding whitespace, an
optional plus sign (no minus can survive here: every hyphen was removed by
the UUID constructor before this point), an optional `0x`/`0X` prefix — an
underscore may directly follow the prefix — then hexadecimal digits with
single underscores between them. -/
def pyIntHex (cs : List Char) : Option Nat :=
  let cs1 := cs.dropWhile isPyWhitespace
  let cs2 := (cs1.reverse.dropWhile isPyWhitespace).reverse
  let cs3 := match cs2 with
    | '+' :: rest => rest
    | rest => rest
  match cs3 with
  | '0' :: 'x' :: '_' :: rest => pyHexDigits rest
  | '0' :: 'X' :: '_' :: rest => pyHexDigits rest
  | '0' :: 'x' :: rest => pyHexDigits rest
  | '0' :: 'X' :: rest => pyHexDigits rest
  | rest => pyHexDigits rest

/-- Strips leading and trailing brace characters, after Python str.strip
with the two brace characters. -/
def stripBraces (cs : List Char) : List Char :=
  ((cs.dropWhile (fun c => c == '\x7b' || c == '\x7d')).reverse.dropWhile
    (fun c => c == '\x7b' || c == '\x7d')).reverse

/-- Left-to-right removal of every non-overlapping occurrence of the pattern,
after Python str.replace with an empty replacement; the fuel argument (one
unit per examined character) makes the recursion structural. -/
def removeOccAux (pattern : List Char) : Nat → List Char → List Char
  | 0, cs => cs
  | _ + 1, [] => []
  | fuel + 1, c :: rest =>
      if pattern.isPrefixOf (c :: rest) && !pattern.isEmpty then
        removeOccAux pattern fuel ((c :: rest).drop pattern.length)
      else
        c :: removeOccAux pattern fuel rest

/-- Removes every occurrence of the pattern from the character list. -/
def removeOcc (pattern cs : List Char) : List Char :=
  removeOccAux pattern cs.length cs

/-- Modelled after the CPython uuid.UUID constructor on a string argument:
removes every `urn:` and `uuid:` occurrence, strips surrounding braces,
removes every hyphen, requires exactly 32 remaining characters, and parses
them as a base-16 integer; returns none where the constructor raises
ValueError. -/
def pythonUUID (s : String) : Option Nat :=
  let cs0 := removeOcc "uuid:".toList (removeOcc "urn:".toList s.toList)
  let cs := (stripBraces cs0).filter (fun c => c != '-')
  if cs.length = 32 then pyIntHex cs else none

/-- Sanity equation: the canonical textual form of UUID one parses to one. -/
theorem pythonUUID_canonical_one :
    pythonUUID "00000000-0000-0000-0000-000000000001" = some 1 := by decide

/-! ## Per-request ACL and the request pipeline

`AdminReportModelView` computes a per-request ACL in `__acl__`: two static
grants, plus a dynamic grant of edit and delete to the authenticated user id
when the request is item scoped, the caller holds ROLE_REPORTS_ADMIN, and
the remote check says the caller administers the layer bound to the stored
record. Fetching the record inside `__acl__` goes through `get_object`,
which raises HTTPNotFound for an unknown id. -/

/-- Access control entry: pyramid `(Allow, principal, permissions)`. Only
Allow entries occur in the embedded source. -/
structure Ace where
  principal : String
  permissions : List String
  deriving Repr, DecidableEq

/-- Static part of the ACL from `AdminReportModelView.__acl__`. -/
def staticAcl : List Ace :=
  [⟨"ROLE_REPORTS_ADMIN", ["list", "add", "view"]⟩,
   ⟨"ROLE_SUPERUSER", ["list", "add", "view", "edit", "delete"]⟩]

/-- Dynamic ACL entry granting edit and delete to the authenticated user. -/
def dynamicGrant (userid : String) : Ace :=
  ⟨userid, ["edit", "delete"]⟩

/-- Tests whether the dynamic grant for the given user id is in the ACL. -/
def hasDynamicGrant (acl : List Ace) (userid : String) : Bool :=
  acl.contains (dynamicGrant userid)

/-- Request context: the authenticated user id and effective principals come
from the trusted upstream headers, `now` is the request wall-clock instant,
and `genId` is the id the database generates for a newly inserted record. -/
structure ReqCtx where
  userid : String
  principals : List String
  now : Nat
  genId : Nat
  deriving Repr, DecidableEq

/-- Embeds `AdminReportModelView.get_object`: looks the record up by primary
key and raises HTTPNotFound (404) when it is absent. -/
def getObject (store : List ReportModel) (id : Nat) : Except Nat ReportModel :=
  match store.find? (fun rm => rm.id == id) with
  | none => Except.error 404
  | some rm => Except.ok rm

/-- Embeds `AdminReportModelView.__acl__` together with the exception it can
let escape: when the request is item scoped and the caller holds
ROLE_REPORTS_ADMIN, the record is fetched (propagating 404 on an unknown id)
and the dynamic grant is appended iff the remote layer-admin check accepts
the record layer. -/
def computeAcl (store : List ReportModel) (id? : Option Nat) (ctx : ReqCtx)
    (isUserAdminOnLayer : String → String → Bool) : Except Nat (List Ace) :=
  match id? with
  | some id =>
      if ctx.principals.contains "ROLE_REPORTS_ADMIN" then
        match getObject store id with
        | Except.error e => Except.error e
        | Except.ok rm =>
            if isUserAdminOnLayer ctx.userid rm.layer_id then
              Except.ok (staticAcl ++ [dynamicGrant ctx.userid])
            else
              Except.ok staticAcl
      else Except.ok staticAcl
  | none => Except.ok staticAcl

/-- Pyramid ACL authorization over Allow-only entries: a permission is
granted iff some entry names one of the caller principals and carries the
permission. -/
def permits (acl : List Ace) (principals : List String) (permission : String) : Bool :=
  acl.any (fun ace => principals.contains ace.principal &&
    ace.permissions.contains permission)

/-- Request body for create and update, after `ReportModelSchema` fields the
client submits. -/
structure ReportModelBody where
  name : String
  layer_id : String
  custom_field_schema : String
  deriving Repr, DecidableEq

/-- Field-level validation error, after the cornice 400 error entries. -/
structure FieldError where
  name : String
  description : String
  deriving Repr, DecidableEq

/-- Modelled from the spec: `ReportModelSchema` validation is not under the
embedded sources (only its wiring through `marshmallow_validator` is). Per
the spec and the expected error documents in the tests, the schema rejects a
name already used by a different record and a layer id the acting user does
not administer, each with a field-level error; `selfId` is the id of the
record being updated (none on create), excluded from the name-uniqueness
check. -/
def validateBody (store : List ReportModel) (userid : String)
    (isUserAdminOnLayer : String → String → Bool) (body : ReportModelBody)
    (selfId : Option Nat) : List FieldError :=
  (if store.any (fun rm => rm.name == body.name &&
      (match selfId with | none => true | some i => rm.id != i)) then
    [⟨"name", "Report model named " ++ body.name ++ " already exists."⟩]
  else []) ++
  (if isUserAdminOnLayer userid body.layer_id then []
  else [⟨"layer_id", "You\x27re not admin on layer " ++ body.layer_id ++ "."⟩])

/-- HTTP outcome of a request: a success with a status code and an optional
dumped record, a 400 validation failure with field errors, or a bare failure
status (403 forbidden, 404 not found, 500 internal error). -/
inductive Outcome where
  | success (status : Nat) (body : Option ReportModel) : Outcome
  | badRequest (errors : List FieldError) : Outcome
  | failure (status : Nat) : Outcome
  deriving Repr, DecidableEq

/-- Status code carried by an outcome. -/
def Outcome.status : Outcome → Nat
  | Outcome.success s _ => s
  | Outcome.badRequest _ => 400
  | Outcome.failure s => s

/-- Requests routed to `AdminReportModelView` and to the tjs_view service;
item-scoped requests carry the raw id path segment. -/
inductive Req where
  | collectionGet : Req
  | collectionPost (body : ReportModelBody) : Req
  | itemGet (pathId : String) : Req
  | itemPut (pathId : String) (body : ReportModelBody) : Req
  | itemDelete (pathId : String) : Req
  | tjsPost (pathId : String) : Req
  deriving Repr, DecidableEq

/-- Raw id path segment of a request, when item scoped. -/
def Req.pathId : Req → Option String
  | Req.collectionGet => none
  | Req.collectionPost _ => none
  | Req.itemGet s => some s
  | Req.itemPut s _ => some s
  | Req.itemDelete s => some s
  | Req.tjsPost s => some s

/-- Permission demanded by each view, after the `@view(permission=...)`
decorators and the tjs_view service registration. -/
def Req.permission : Req → String
  | Req.collectionGet => "list"
  | Req.collectionPost _ => "add"
  | Req.itemGet _ => "view"
  | Req.itemPut _ _ => "edit"
  | Req.itemDelete _ => "delete"
  | Req.tjsPost _ => "edit"

/-- Record built by `collection_post`: all client fields from the body, both
audit principals set to the authenticated user id, both timestamps set at
insertion time, the id generated by the database. -/
def newRecord (ctx : ReqCtx) (body : ReportModelBody) : ReportModel :=
  ⟨ctx.genId, body.name, body.layer_id, body.custom_field_schema,
    ctx.userid, ctx.now, ctx.userid, ctx.now⟩

/-- Record produced by a successful `put`: client fields replaced from the
body, `updated_by` set to the authenticated user id and `updated_at` to the
current time, creation audit fields untouched (modelled from the spec for
the schema-session merge, which is not under the embedded sources). -/
def updatedRecord (ctx : ReqCtx) (body : ReportModelBody) (rm : ReportModel) :
    ReportModel :=
  { rm with
      name := body.name
      layer_id := body.layer_id
      custom_field_schema := body.custom_field_schema
      updated_by := ctx.userid
      updated_at := ctx.now }

/-- View bodies of `AdminReportModelView` and `post_tjs_view`, run after the
permission check and the body validators; `id?` is the parsed path id (some
for item-scoped requests). The defensive 500 arms are unreachable: routing
only produces item requests with a parsed id. -/
def runHandler (store : List ReportModel) (ctx : ReqCtx) (id? : Option Nat) :
    Req → Outcome × List ReportModel
  | Req.collectionGet => (Outcome.success 200 none, store)
  | Req.collectionPost body =>
      (Outcome.success 201 (some (newRecord ctx body)), store ++ [newRecord ctx body])
  | Req.itemGet _ =>
      match id? with
      | none => (Outcome.failure 500, store)
      | some id =>
          match getObject store id with
          | Except.error e => (Outcome.failure e, store)
          | Except.ok rm => (Outcome.success 200 (some rm), store)
  | Req.itemPut _ body =>
      match id? with
      | none => (Outcome.failure 500, store)
      | some id =>
          match getObject store id with
          | Except.error e => (Outcome.failure e, store)
          | Except.ok rm =>
              (Outcome.success 200 (some (updatedRecord ctx body rm)),
                store.map (fun r => if r.id == id then updatedRecord ctx body rm else r))
  | Req.itemDelete _ =>
      match id? with
      | none => (Outcome.failure 500, store)
      | some id =>
          match getObject store id with
          | Except.error e => (Outcome.failure e, store)
          | Except.ok _ =>
              (Outcome.success 204 none, store.eraseP (fun r => r.id == id))
  | Req.tjsPost _ =>
      match id? with
      | none => (Outcome.failure 500, store)
      | some id =>
          match getObject store id with
          | Except.error e => (Outcome.failure e, store)
          | Except.ok _ => (Outcome.success 200 none, store)

/-- Body-validation stage of the pipeline: the cornice marshmallow validators
run only for create and update, answering 400 with the field errors when the
schema refuses the body, and hand over to the view body otherwise. -/
def validatedStep (store : List ReportModel) (ctx : ReqCtx)
    (isUserAdminOnLayer : String → String → Bool) (id? : Option Nat) :
    Req → Outcome × List ReportModel
  | Req.collectionPost body =>
      match validateBody store ctx.userid isUserAdminOnLayer body none with
      | [] => runHandler store ctx id? (Req.collectionPost body)
      | errs => (Outcome.badRequest errs, store)
  | Req.itemPut s body =>
      match validateBody store ctx.userid isUserAdminOnLayer body id? with
      | [] => runHandler store ctx id? (Req.itemPut s body)
      | errs => (Outcome.badRequest errs, store)
  | req => runHandler store ctx id? req

/-- Authorization stage of the pipeline: computes the per-request ACL
(propagating the 404 that `get_object` can raise from inside `__acl__`),
answers 403 when the demanded permission is not granted, and hands over to
the validation stage otherwise. -/
def aclStep (store : List ReportModel) (ctx : ReqCtx)
    (isUserAdminOnLayer : String → String → Bool) (id? : Option Nat)
    (req : Req) : Outcome × List ReportModel :=
  match computeAcl store id? ctx isUserAdminOnLayer with
  | Except.error e => (Outcome.failure e, store)
  | Except.ok acl =>
      if !permits acl ctx.principals req.permission then
        (Outcome.failure 403, store)
      else validatedStep store ctx isUserAdminOnLayer id? req

/-- Full pyramid request pipeline for the embedded views: the view factory
parses the id path segment with the CPython UUID constructor (an unparseable
id raises ValueError, surfacing as a 500 internal error), then authorization,
validation and the view body run in order. -/
def handleRequest (store : List ReportModel) (ctx : ReqCtx)
    (isUserAdminOnLayer : String → String → Bool) (req : Req) :
    Outcome × List ReportModel :=
  match req.pathId with
  | none => aclStep store ctx isUserAdminOnLayer none req
  | some s =>
      match pythonUUID s with
      | none => (Outcome.failure 500, store)
      | some id => aclStep store ctx isUserAdminOnLayer (some id) req

/-! ## Layer listing service

`get_layers` fetches the remote layer list (with `raise_for_status`) and the
remote ACL document, then appends a layer name to the result once for every
ACL entry whose parsed rule matches it. The two HTTP fetches are abstracted
as results: a failed fetch (non-2xx response) carries the upstream error. -/

/-- Layer entry of the remote layers.json document. -/
structure LayerEntry where
  name : String
  deriving Repr, DecidableEq

/-- Filtering loop of `get_layers`: for every layer of the remote list and
every entry of the ACL document, appends the layer name whenever the parsed
rule matches it against the caller principals. -/
def getLayersBody (layers : List LayerEntry) (aclDoc : List (String × String))
    (principals : List String) : List String :=
  layers.flatMap (fun layer =>
    (aclDoc.filter (fun e => (Rule.parse e.1 e.2).matches layer.name principals)).map
      (fun _ => layer.name))

/-- Embeds `get_layers` with the two remote calls abstracted as results: the
layer list fetch (guarded by `raise_for_status` in the source) and the ACL
document fetch (modelled from the spec: `get_geoserver_layers_acl` is not
under the embedded sources, and per the spec a non-2xx remote response
propagates as a request failure). -/
def getLayers (layersResp : Except Nat (List LayerEntry))
    (aclResp : Except Nat (List (String × String)))
    (principals : List String) : Except Nat (List String) :=
  match layersResp with
  | Except.error e => Except.error e
  | Except.ok layers =>
      match aclResp with
      | Except.error e => Except.error e
      | Except.ok aclDoc => Except.ok (getLayersBody layers aclDoc principals)

/-- C5: when both remote fetches succeed, `/layers` returns exactly the
layer names authorized by the rule matcher — a name is returned iff it names
a remote layer matched by some entry of the ACL document against the caller
effective principals. -/
theorem get_layers_exactly_authorized (layers : List LayerEntry)
    (aclDoc : List (String × String)) (principals : List String) :
    getLayers (Except.ok layers) (Except.ok aclDoc) principals
      = Except.ok (getLayersBody layers aclDoc principals) ∧
    ∀ name, name ∈ getLayersBody layers aclDoc principals ↔
      ∃ l ∈ layers, l.name = name ∧
        ∃ e ∈ aclDoc, (Rule.parse e.1 e.2).matches l.name principals = true := by
  refine ⟨rfl, fun name => ?_⟩
  simp only [getLayersBody, List.mem_flatMap, List.mem_map, List.mem_filter]
  constructor
  · rintro ⟨l, hl, e, ⟨he, hm⟩, hname⟩
    exact ⟨l, hl, hname, e, he, hm⟩
  · rintro ⟨l, hl, hname, e, he, hm⟩
    exact ⟨l, hl, e, ⟨he, hm⟩, hname⟩

/-- C8: `/layers` propagates an upstream failure of either remote call as
the request outcome, never substituting a layer list. -/
theorem get_layers_propagates_upstream_failure (e : Nat)
    (aclResp : Except Nat (List (String × String)))
    (layers : List LayerEntry) (principals : List String) :
    getLayers (Except.error e) aclResp principals = Except.error e ∧
    getLayers (Except.ok layers) (Except.error e) principals = Except.error e := by
  exact ⟨rfl, rfl⟩

/-! ## Concrete fixtures for witnesses and counterexamples -/

/-- Example record bound to the layer layerA. -/
def exRecord : ReportModel :=
  ⟨1, "existing", "layerA", "schemaDoc", "creator", 10, "creator", 10⟩

/-- Example store holding the one example record. -/
def exStore : List ReportModel := [exRecord]

/-- Example context: an authenticated user holding no role. -/
def exCtxNoRole : ReqCtx := ⟨"alice", ["alice"], 50, 7⟩

/-- Example context: an authenticated user holding ROLE_REPORTS_ADMIN. -/
def exCtxAdmin : ReqCtx := ⟨"alice", ["alice", "ROLE_REPORTS_ADMIN"], 50, 7⟩

/-- Remote check accepting exactly the layer layerA. -/
def exOracle : String → String → Bool := fun _ l => l == "layerA"

/-! ## C1: dynamic per-object grant -/

/-- Mapping every record through a function that only rewrites the creation
audit fields commutes with the primary key lookup. -/
theorem find?_map_creation (store : List ReportModel) (id : Nat)
    (f : ReportModel → String) (g : ReportModel → Nat) :
    (store.map (fun r => { r with created_by := f r, created_at := g r })).find?
        (fun rm => rm.id == id)
      = (store.find? (fun rm => rm.id == id)).map
          (fun r => { r with created_by := f r, created_at := g r }) := by
  induction store with
  | nil => rfl
  | cons a rest ih =>
      by_cases h : a.id == id
      · simp [List.find?, h]
      · simp [List.find?, h, ih]

/-- The computed ACL does not inspect the creation audit fields: rewriting
`created_by` and `created_at` on every stored record leaves it unchanged. -/
theorem computeAcl_ignores_creation_fields (store : List ReportModel) (id : Nat)
    (ctx : ReqCtx) (isAdmin : String → String → Bool)
    (f : ReportModel → String) (g : ReportModel → Nat) :
    computeAcl (store.map (fun r => { r with created_by := f r, created_at := g r }))
        (some id) ctx isAdmin
      = computeAcl store (some id) ctx isAdmin := by
  simp only [computeAcl, getObject, find?_map_creation]
  cases store.find? (fun rm => rm.id == id) <;> simp

/-- C1 counterexample: a caller whose effective principals do not include
ROLE_REPORTS_ADMIN, but who does administer the record bound layer according
to the remote check (constantly true here), receives no dynamic edit/delete
grant in the computed ACL of the item-scoped request — the grant is not
equivalent to layer adminship alone. -/
theorem acl_dynamic_grant_counterexample :
    getObject exStore 1 = Except.ok exRecord ∧
    (fun _ _ => true : String → String → Bool) exCtxNoRole.userid exRecord.layer_id = true ∧
    computeAcl exStore (some 1) exCtxNoRole (fun _ _ => true) = Except.ok staticAcl ∧
    hasDynamicGrant staticAcl exCtxNoRole.userid = false := by
  refine ⟨rfl, rfl, rfl, by decide⟩

/-- C1 (amended): for an item-scoped request on an existing record by a
caller holding ROLE_REPORTS_ADMIN, the computed ACL contains the dynamic
edit/delete grant to the authenticated principal iff the remote check says
that principal administers the record bound layer; such a caller (when not
a superuser) may always view the record, is denied edit and delete when not
a layer admin, and the creation audit fields give the record creator no
extra standing in the ACL. -/
theorem acl_dynamic_grant_iff_layer_admin (store : List ReportModel) (id : Nat)
    (rm : ReportModel) (ctx : ReqCtx) (isAdmin : String → String → Bool)
    (hrm : getObject store id = Except.ok rm)
    (hrole : "ROLE_REPORTS_ADMIN" ∈ ctx.principals)
    (hsup : "ROLE_SUPERUSER" ∉ ctx.principals) :
    ∃ acl, computeAcl store (some id) ctx isAdmin = Except.ok acl ∧
      (hasDynamicGrant acl ctx.userid = true ↔ isAdmin ctx.userid rm.layer_id = true) ∧
      permits acl ctx.principals "view" = true ∧
      (isAdmin ctx.userid rm.layer_id = false →
        permits acl ctx.principals "edit" = false ∧
        permits acl ctx.principals "delete" = false) ∧
      (∀ f : ReportModel → String, ∀ g : ReportModel → Nat,
        computeAcl (store.map (fun r => { r with created_by := f r, created_at := g r }))
            (some id) ctx isAdmin
          = computeAcl store (some id) ctx isAdmin) := by
  by_cases h : isAdmin ctx.userid rm.layer_id
  · refine ⟨staticAcl ++ [dynamicGrant ctx.userid], ?_, ?_, ?_, ?_, ?_⟩
    · simp [computeAcl, hrm, hrole, h]
    · simp [hasDynamicGrant, h]
    · simp [permits, staticAcl, hrole]
    · intro hfalse; rw [hfalse] at h; cases h
    · intro f g; exact computeAcl_ignores_creation_fields store id ctx isAdmin f g
  · rw [Bool.not_eq_true] at h
    refine ⟨staticAcl, ?_, ?_, ?_, ?_, ?_⟩
    · simp [computeAcl, hrm, hrole, h]
    · simp [hasDynamicGrant, staticAcl, dynamicGrant, h]
    · simp [permits, staticAcl, hrole]
    · intro _
      constructor <;> simp [permits, staticAcl, hsup]
    · intro f g; exact computeAcl_ignores_creation_fields store id ctx isAdmin f g

/-- Witness instantiating the amended dynamic-grant theorem at the example
store, an admin caller, and the oracle accepting layerA. -/
theorem acl_dynamic_grant_iff_layer_admin_witness :
    ∃ acl, computeAcl exStore (some 1) exCtxAdmin exOracle = Except.ok acl ∧
      (hasDynamicGrant acl exCtxAdmin.userid = true ↔
        exOracle exCtxAdmin.userid exRecord.layer_id = true) ∧
      permits acl exCtxAdmin.principals "view" = true ∧
      (exOracle exCtxAdmin.userid exRecord.layer_id = false →
        permits acl exCtxAdmin.principals "edit" = false ∧
        permits acl exCtxAdmin.principals "delete" = false) ∧
      (∀ f : ReportModel → String, ∀ g : ReportModel → Nat,
        computeAcl (exStore.map (fun r => { r with created_by := f r, created_at := g r }))
            (some 1) exCtxAdmin exOracle
          = computeAcl exStore (some 1) exCtxAdmin exOracle) :=
  acl_dynamic_grant_iff_layer_admin exStore 1 exRecord exCtxAdmin exOracle rfl
    (by decide) (by decide)

/-! ## C9 and C10: id handling ahead of the permission decision -/

/-- C9: an item-scoped request (GET, PUT, DELETE, or the tjs_view POST) by a
caller holding ROLE_REPORTS_ADMIN on an id matching no stored record fails
with 404 raised from the ACL computation itself, before any permission
decision — in particular it never yields 403. -/
theorem missing_id_yields_404 (store : List ReportModel) (ctx : ReqCtx)
    (isAdmin : String → String → Bool) (s : String) (id : Nat)
    (body : ReportModelBody)
    (hid : pythonUUID s = some id)
    (hmissing : getObject store id = Except.error 404)
    (hrole : "ROLE_REPORTS_ADMIN" ∈ ctx.principals) :
    computeAcl store (some id) ctx isAdmin = Except.error 404 ∧
    handleRequest store ctx isAdmin (Req.itemGet s) = (Outcome.failure 404, store) ∧
    handleRequest store ctx isAdmin (Req.itemPut s body) = (Outcome.failure 404, store) ∧
    handleRequest store ctx isAdmin (Req.itemDelete s) = (Outcome.failure 404, store) ∧
    handleRequest store ctx isAdmin (Req.tjsPost s) = (Outcome.failure 404, store) := by
  have hacl : computeAcl store (some id) ctx isAdmin = Except.error 404 := by
    simp [computeAcl, hmissing, hrole]
  refine ⟨hacl, ?_, ?_, ?_, ?_⟩ <;>
    simp [handleRequest, Req.pathId, hid, aclStep, hacl]

/-- Witness for the missing-id theorem: id 2 is absent from the example
store, so every item-scoped request on it by the admin caller becomes 404. -/
theorem missing_id_yields_404_witness :
    computeAcl exStore (some 2) exCtxAdmin exOracle = Except.error 404 ∧
    handleRequest exStore exCtxAdmin exOracle
        (Req.itemGet "00000000-0000-0000-0000-000000000002")
      = (Outcome.failure 404, exStore) ∧
    handleRequest exStore exCtxAdmin exOracle
        (Req.itemPut "00000000-0000-0000-0000-000000000002" ⟨"new", "layerA", "doc"⟩)
      = (Outcome.failure 404, exStore) ∧
    handleRequest exStore exCtxAdmin exOracle
        (Req.itemDelete "00000000-0000-0000-0000-000000000002")
      = (Outcome.failure 404, exStore) ∧
    handleRequest exStore exCtxAdmin exOracle
        (Req.tjsPost "00000000-0000-0000-0000-000000000002")
      = (Outcome.failure 404, exStore) :=
  missing_id_yields_404 exStore exCtxAdmin exOracle
    "00000000-0000-0000-0000-000000000002" 2 ⟨"new", "layerA", "doc"⟩
    (by decide) rfl (by decide)

/-- C10: an item-scoped request whose id path segment the CPython UUID
constructor cannot parse fails in the view factory with a 500 internal
error, before routing to any operation — neither the 404 not-found nor the
400 validation response used elsewhere. -/
theorem malformed_uuid_yields_500 (store : List ReportModel) (ctx : ReqCtx)
    (isAdmin : String → String → Bool) (s : String) (body : ReportModelBody)
    (hbad : pythonUUID s = none) :
    handleRequest store ctx isAdmin (Req.itemGet s) = (Outcome.failure 500, store) ∧
    handleRequest store ctx isAdmin (Req.itemPut s body) = (Outcome.failure 500, store) ∧
    handleRequest store ctx isAdmin (Req.itemDelete s) = (Outcome.failure 500, store) ∧
    handleRequest store ctx isAdmin (Req.tjsPost s) = (Outcome.failure 500, store) ∧
    Outcome.failure 500 ≠ Outcome.failure 404 ∧
    (∀ errs, Outcome.failure 500 ≠ Outcome.badRequest errs) := by
  refine ⟨?_, ?_, ?_, ?_, by decide, fun errs => by simp⟩ <;>
    simp [handleRequest, Req.pathId, hbad]

/-! ## C6: delete semantics -/

/-- A successful `get_object` comes from a successful primary key lookup. -/
theorem getObject_ok_find? (store : List ReportModel) (id : Nat)
    (rm : ReportModel) (h : getObject store id = Except.ok rm) :
    store.find? (fun r => r.id == id) = some rm := by
  unfold getObject at h
  cases hf : store.find? (fun r => r.id == id) with
  | none => rw [hf] at h; cases h
  | some x => rw [hf] at h; injection h with h1; rw [h1]

/-- When primary keys are pairwise distinct, erasing the record a successful
lookup returned removes exactly that record: the record is gone, every other
record survives, and a further lookup of the id fails. -/
theorem eraseP_removes_exactly (store : List ReportModel) (id : Nat)
    (rm : ReportModel)
    (hfind : store.find? (fun r => r.id == id) = some rm)
    (hnd : (store.map (fun r => r.id)).Nodup) :
    rm ∉ store.eraseP (fun r => r.id == id) ∧
    (∀ r ∈ store, r ≠ rm → r ∈ store.eraseP (fun r => r.id == id)) ∧
    (store.eraseP (fun r => r.id == id)).find? (fun r => r.id == id) = none := by
  induction store with
  | nil => cases hfind
  | cons a rest ih =>
      rw [List.map_cons, List.nodup_cons] at hnd
      by_cases ha : a.id = id
      · have harm : a = rm := by
          rw [List.find?_cons] at hfind
          simpa [ha] using hfind
        subst harm
        have herase : (a :: rest).eraseP (fun r => r.id == id) = rest := by
          simp [List.eraseP_cons, ha]
        rw [herase]
        refine ⟨?_, ?_, ?_⟩
        · intro hmem
          exact hnd.1 (List.mem_map.mpr ⟨a, hmem, rfl⟩)
        · intro r hr hne
          rcases List.mem_cons.mp hr with h | h
          · exact absurd h hne
          · exact h
        · rw [List.find?_eq_none]
          intro x hx hpx
          have hxid : x.id = id := by simpa using hpx
          exact hnd.1 (List.mem_map.mpr ⟨x, hx, by rw [hxid, ha]⟩)
      · have hbeq : (a.id == id) = false := by simpa using ha
        have hfind2 : rest.find? (fun r => r.id == id) = some rm := by
          rw [List.find?_cons, hbeq] at hfind
          exact hfind
        have herase : (a :: rest).eraseP (fun r => r.id == id)
            = a :: rest.eraseP (fun r => r.id == id) := by
          simp [List.eraseP_cons, ha]
        rw [herase]
        obtain ⟨h1, h2, h3⟩ := ih hfind2 hnd.2
        have hrmid : rm.id = id := by simpa using List.find?_some hfind2
        refine ⟨?_, ?_, ?_⟩
        · intro hmem
          rcases List.mem_cons.mp hmem with h | h
          · exact ha (by rw [← h, hrmid])
          · exact h1 h
        · intro r hr hne
          rcases List.mem_cons.mp hr with h | h
          · exact List.mem_cons.mpr (Or.inl h)
          · exact List.mem_cons.mpr (Or.inr (h2 r h hne))
        · simp [List.find?_cons, hbeq, h3]

/-- C6: a DELETE on an id matching no record fails with 404 and leaves the
store unchanged; a permitted DELETE on an existing id answers 204, removes
exactly that record (primary keys being pairwise distinct), and a subsequent
GET of the same id answers 404. -/
theorem delete_semantics (store : List ReportModel) (ctx : ReqCtx)
    (isAdmin : String → String → Bool) (s : String) (id : Nat)
    (hid : pythonUUID s = some id)
    (hrole : "ROLE_REPORTS_ADMIN" ∈ ctx.principals)
    (huser : ctx.userid ∈ ctx.principals) :
    (getObject store id = Except.error 404 →
      handleRequest store ctx isAdmin (Req.itemDelete s)
        = (Outcome.failure 404, store)) ∧
    (∀ rm, getObject store id = Except.ok rm →
      isAdmin ctx.userid rm.layer_id = true →
      (store.map (fun r => r.id)).Nodup →
      handleRequest store ctx isAdmin (Req.itemDelete s)
        = (Outcome.success 204 none, store.eraseP (fun r => r.id == id)) ∧
      rm ∉ store.eraseP (fun r => r.id == id) ∧
      (∀ r ∈ store, r ≠ rm → r ∈ store.eraseP (fun r => r.id == id)) ∧
      getObject (store.eraseP (fun r => r.id == id)) id = Except.error 404 ∧
      handleRequest (store.eraseP (fun r => r.id == id)) ctx isAdmin
          (Req.itemGet s)
        = (Outcome.failure 404, store.eraseP (fun r => r.id == id))) := by
  constructor
  · intro hmissing
    have hacl : computeAcl store (some id) ctx isAdmin = Except.error 404 := by
      simp [computeAcl, hmissing, hrole]
    simp [handleRequest, Req.pathId, hid, aclStep, hacl]
  · intro rm hrm hadm hnd
    have hfind := getObject_ok_find? store id rm hrm
    obtain ⟨h1, h2, h3⟩ := eraseP_removes_exactly store id rm hfind hnd
    have hacl : computeAcl store (some id) ctx isAdmin
        = Except.ok (staticAcl ++ [dynamicGrant ctx.userid]) := by
      simp [computeAcl, hrm, hrole, hadm]
    have hperm : permits (staticAcl ++ [dynamicGrant ctx.userid])
        ctx.principals "delete" = true := by
      simp [permits, staticAcl, dynamicGrant, huser]
    have hget : getObject (store.eraseP (fun r => r.id == id)) id
        = Except.error 404 := by
      unfold getObject
      rw [h3]
    have hacl2 : computeAcl (store.eraseP (fun r => r.id == id)) (some id) ctx
        isAdmin = Except.error 404 := by
      simp [computeAcl, hget, hrole]
    refine ⟨?_, h1, h2, hget, ?_⟩
    · simp [handleRequest, Req.pathId, hid, aclStep, hacl, Req.permission, hperm,
        validatedStep, runHandler, hrm]
    · simp [handleRequest, Req.pathId, hid, aclStep, hacl2]

/-- Witness for the delete theorem: deleting the missing id 2 answers 404,
deleting the present id 1 answers 204 and removes the example record. -/
theorem delete_semantics_witness :
    (getObject exStore 1 = Except.error 404 →
      handleRequest exStore exCtxAdmin exOracle
          (Req.itemDelete "00000000-0000-0000-0000-000000000001")
        = (Outcome.failure 404, exStore)) ∧
    (∀ rm, getObject exStore 1 = Except.ok rm →
      exOracle exCtxAdmin.userid rm.layer_id = true →
      (exStore.map (fun r => r.id)).Nodup →
      handleRequest exStore exCtxAdmin exOracle
          (Req.itemDelete "00000000-0000-0000-0000-000000000001")
        = (Outcome.success 204 none, exStore.eraseP (fun r => r.id == 1)) ∧
      rm ∉ exStore.eraseP (fun r => r.id == 1) ∧
      (∀ r ∈ exStore, r ≠ rm → r ∈ exStore.eraseP (fun r => r.id == 1)) ∧
      getObject (exStore.eraseP (fun r => r.id == 1)) 1 = Except.error 404 ∧
      handleRequest (exStore.eraseP (fun r => r.id == 1)) exCtxAdmin exOracle
          (Req.itemGet "00000000-0000-0000-0000-000000000001")
        = (Outcome.failure 404, exStore.eraseP (fun r => r.id == 1))) :=
  delete_semantics exStore exCtxAdmin exOracle
    "00000000-0000-0000-0000-000000000001" 1 (by decide) (by decide) (by decide)

/-! ## C7: audit fields on create and update -/

/-- Example request body. -/
def exBody : ReportModelBody := ⟨"new", "layerA", "doc"⟩

/-- C7: a permitted, validated create answers 201 and stores a record whose
created_by and updated_by are both the acting principal; a permitted,
validated update answers 200, sets updated_by to the acting principal and
updated_at to the current instant, and leaves the creation audit fields of
every stored record unchanged. -/
theorem audit_fields_semantics (store : List ReportModel) (ctx : ReqCtx)
    (isAdmin : String → String → Bool) (body : ReportModelBody)
    (s : String) (id : Nat)
    (hrole : "ROLE_REPORTS_ADMIN" ∈ ctx.principals)
    (huser : ctx.userid ∈ ctx.principals) :
    (validateBody store ctx.userid isAdmin body none = [] →
      handleRequest store ctx isAdmin (Req.collectionPost body)
        = (Outcome.success 201 (some (newRecord ctx body)),
           store ++ [newRecord ctx body]) ∧
      (newRecord ctx body).created_by = ctx.userid ∧
      (newRecord ctx body).updated_by = ctx.userid) ∧
    (∀ rm, pythonUUID s = some id → getObject store id = Except.ok rm →
      isAdmin ctx.userid rm.layer_id = true →
      validateBody store ctx.userid isAdmin body (some id) = [] →
      handleRequest store ctx isAdmin (Req.itemPut s body)
        = (Outcome.success 200 (some (updatedRecord ctx body rm)),
           store.map (fun r => if r.id == id then updatedRecord ctx body rm else r)) ∧
      (updatedRecord ctx body rm).updated_by = ctx.userid ∧
      (updatedRecord ctx body rm).updated_at = ctx.now ∧
      (updatedRecord ctx body rm).created_by = rm.created_by ∧
      (updatedRecord ctx body rm).created_at = rm.created_at ∧
      (∀ r ∈ store.map (fun r => if r.id == id then updatedRecord ctx body rm else r),
        ∃ r₀ ∈ store, r.created_by = r₀.created_by ∧ r.created_at = r₀.created_at ∧
          r.id = r₀.id)) := by
  constructor
  · intro hval
    have hperm : permits staticAcl ctx.principals "add" = true := by
      simp [permits, staticAcl, hrole]
    refine ⟨?_, rfl, rfl⟩
    simp [handleRequest, Req.pathId, aclStep, computeAcl, Req.permission, hperm,
      validatedStep, hval, runHandler]
  · intro rm hid hrm hadm hval
    have hfind := getObject_ok_find? store id rm hrm
    have hacl : computeAcl store (some id) ctx isAdmin
        = Except.ok (staticAcl ++ [dynamicGrant ctx.userid]) := by
      simp [computeAcl, hrm, hrole, hadm]
    have hperm : permits (staticAcl ++ [dynamicGrant ctx.userid])
        ctx.principals "edit" = true := by
      simp [permits, staticAcl, dynamicGrant, huser]
    refine ⟨?_, rfl, rfl, rfl, rfl, ?_⟩
    · simp [handleRequest, Req.pathId, hid, aclStep, hacl, Req.permission, hperm,
        validatedStep, hval, runHandler, hrm]
    · intro r hr
      rcases List.mem_map.mp hr with ⟨r₀, hr₀, heq⟩
      by_cases h : r₀.id == id
      · simp only [h, if_true] at heq
        refine ⟨rm, List.mem_of_find?_eq_some hfind, ?_, ?_, ?_⟩ <;> rw [← heq] <;> rfl
      · have heq2 : r₀ = r := by simpa [h] using heq
        exact ⟨r₀, hr₀, by rw [heq2], by rw [heq2], by rw [heq2]⟩

/-- Witness for the audit-field theorem: creating and updating the example
record as the admin caller. -/
theorem audit_fields_semantics_witness :
    (validateBody exStore exCtxAdmin.userid exOracle exBody none = [] →
      handleRequest exStore exCtxAdmin exOracle (Req.collectionPost exBody)
        = (Outcome.success 201 (some (newRecord exCtxAdmin exBody)),
           exStore ++ [newRecord exCtxAdmin exBody]) ∧
      (newRecord exCtxAdmin exBody).created_by = exCtxAdmin.userid ∧
      (newRecord exCtxAdmin exBody).updated_by = exCtxAdmin.userid) ∧
    (∀ rm, pythonUUID "00000000-0000-0000-0000-000000000001" = some 1 →
      getObject exStore 1 = Except.ok rm →
      exOracle exCtxAdmin.userid rm.layer_id = true →
      validateBody exStore exCtxAdmin.userid exOracle exBody (some 1) = [] →
      handleRequest exStore exCtxAdmin exOracle
          (Req.itemPut "00000000-0000-0000-0000-000000000001" exBody)
        = (Outcome.success 200 (some (updatedRecord exCtxAdmin exBody rm)),
           exStore.map (fun r =>
             if r.id == 1 then updatedRecord exCtxAdmin exBody rm else r)) ∧
      (updatedRecord exCtxAdmin exBody rm).updated_by = exCtxAdmin.userid ∧
      (updatedRecord exCtxAdmin exBody rm).updated_at = exCtxAdmin.now ∧
      (updatedRecord exCtxAdmin exBody rm).created_by = rm.created_by ∧
      (updatedRecord exCtxAdmin exBody rm).created_at = rm.created_at ∧
      (∀ r ∈ exStore.map (fun r =>
          if r.id == 1 then updatedRecord exCtxAdmin exBody rm else r),
        ∃ r₀ ∈ exStore, r.created_by = r₀.created_by ∧
          r.created_at = r₀.created_at ∧ r.id = r₀.id)) :=
  audit_fields_semantics exStore exCtxAdmin exOracle exBody
    "00000000-0000-0000-0000-000000000001" 1 (by decide) (by decide)

/-! ## C3: layer-admin field error at schema validation -/

/-- A create request whose body fails schema validation answers 400 with the
field errors, leaving the store unchanged. -/
theorem validatedStep_badRequest_post (store : List ReportModel) (ctx : ReqCtx)
    (isAdmin : String → String → Bool) (body : ReportModelBody)
    (id? : Option Nat)
    (h : validateBody store ctx.userid isAdmin body none ≠ []) :
    validatedStep store ctx isAdmin id? (Req.collectionPost body)
      = (Outcome.badRequest (validateBody store ctx.userid isAdmin body none),
         store) := by
  cases hv : validateBody store ctx.userid isAdmin body none with
  | nil => exact absurd hv h
  | cons e rest => simp only [validatedStep, hv]

/-- An update request whose body fails schema validation answers 400 with
the field errors, leaving the store unchanged. -/
theorem validatedStep_badRequest_put (store : List ReportModel) (ctx : ReqCtx)
    (isAdmin : String → String → Bool) (body : ReportModelBody)
    (s : String) (id? : Option Nat)
    (h : validateBody store ctx.userid isAdmin body id? ≠ []) :
    validatedStep store ctx isAdmin id? (Req.itemPut s body)
      = (Outcome.badRequest (validateBody store ctx.userid isAdmin body id?),
         store) := by
  cases hv : validateBody store ctx.userid isAdmin body id? with
  | nil => exact absurd hv h
  | cons e rest => simp only [validatedStep, hv]

/-- C3: a create or update whose body names a layer the acting principal
does not administer fails at schema validation with a 400 response carrying
a field-level error on layer_id — distinct from the 403 permission
rejection — and the store is not changed. -/
theorem layer_admin_field_error (store : List ReportModel) (ctx : ReqCtx)
    (isAdmin : String → String → Bool) (body : ReportModelBody)
    (s : String) (id : Nat)
    (hrole : "ROLE_REPORTS_ADMIN" ∈ ctx.principals)
    (huser : ctx.userid ∈ ctx.principals)
    (hlayer : isAdmin ctx.userid body.layer_id = false) :
    (handleRequest store ctx isAdmin (Req.collectionPost body)
        = (Outcome.badRequest (validateBody store ctx.userid isAdmin body none),
           store) ∧
      (∃ e ∈ validateBody store ctx.userid isAdmin body none,
        e.name = "layer_id") ∧
      (Outcome.badRequest
        (validateBody store ctx.userid isAdmin body none)).status = 400) ∧
    (∀ rm, pythonUUID s = some id → getObject store id = Except.ok rm →
      isAdmin ctx.userid rm.layer_id = true →
      handleRequest store ctx isAdmin (Req.itemPut s body)
        = (Outcome.badRequest
            (validateBody store ctx.userid isAdmin body (some id)), store) ∧
      (∃ e ∈ validateBody store ctx.userid isAdmin body (some id),
        e.name = "layer_id") ∧
      (Outcome.badRequest
        (validateBody store ctx.userid isAdmin body (some id))).status = 400) := by
  have herr : ∀ selfId, ∃ e ∈ validateBody store ctx.userid isAdmin body selfId,
      e.name = "layer_id" := by
    intro selfId
    refine ⟨⟨"layer_id", "You\x27re not admin on layer " ++ body.layer_id ++ "."⟩,
      ?_, rfl⟩
    simp [validateBody, hlayer]
  have hne : ∀ selfId, validateBody store ctx.userid isAdmin body selfId ≠ [] := by
    intro selfId hnil
    obtain ⟨e, he, _⟩ := herr selfId
    rw [hnil] at he
    cases he
  constructor
  · have hperm : permits staticAcl ctx.principals "add" = true := by
      simp [permits, staticAcl, hrole]
    refine ⟨?_, herr none, rfl⟩
    rw [handleRequest]
    simp only [Req.pathId]
    rw [aclStep]
    simp only [computeAcl, Req.permission, hperm, Bool.not_true, Bool.false_eq_true,
      if_false]
    exact validatedStep_badRequest_post store ctx isAdmin body none (hne none)
  · intro rm hid hrm hadm
    have hacl : computeAcl store (some id) ctx isAdmin
        = Except.ok (staticAcl ++ [dynamicGrant ctx.userid]) := by
      simp [computeAcl, hrm, hrole, hadm]
    have hperm : permits (staticAcl ++ [dynamicGrant ctx.userid])
        ctx.principals "edit" = true := by
      simp [permits, staticAcl, dynamicGrant, huser]
    refine ⟨?_, herr (some id), rfl⟩
    rw [handleRequest]
    simp only [Req.pathId, hid]
    rw [aclStep]
    simp only [hacl, Req.permission, hperm, Bool.not_true, Bool.false_eq_true,
      if_false]
    exact validatedStep_badRequest_put store ctx isAdmin body s (some id)
      (hne (some id))

/-- Example request body naming a layer the example oracle denies. -/
def exBodyDenied : ReportModelBody := ⟨"new", "layerB", "doc"⟩

/-- Witness for the layer-admin field error theorem: the example body names
layerB, which the layerA-only oracle denies, on both create and update of
the layerA-bound example record. -/
theorem layer_admin_field_error_witness :
    (handleRequest exStore exCtxAdmin exOracle (Req.collectionPost exBodyDenied)
        = (Outcome.badRequest
            (validateBody exStore exCtxAdmin.userid exOracle exBodyDenied none),
           exStore) ∧
      (∃ e ∈ validateBody exStore exCtxAdmin.userid exOracle exBodyDenied none,
        e.name = "layer_id") ∧
      (Outcome.badRequest
        (validateBody exStore exCtxAdmin.userid exOracle exBodyDenied
          none)).status = 400) ∧
    (∀ rm, pythonUUID "00000000-0000-0000-0000-000000000001" = some 1 →
      getObject exStore 1 = Except.ok rm →
      exOracle exCtxAdmin.userid rm.layer_id = true →
      handleRequest exStore exCtxAdmin exOracle
          (Req.itemPut "00000000-0000-0000-0000-000000000001" exBodyDenied)
        = (Outcome.badRequest
            (validateBody exStore exCtxAdmin.userid exOracle exBodyDenied
              (some 1)), exStore) ∧
      (∃ e ∈ validateBody exStore exCtxAdmin.userid exOracle exBodyDenied
          (some 1), e.name = "layer_id") ∧
      (Outcome.badRequest
        (validateBody exStore exCtxAdmin.userid exOracle exBodyDenied
          (some 1))).status = 400) :=
  layer_admin_field_error exStore exCtxAdmin exOracle exBodyDenied
    "00000000-0000-0000-0000-000000000001" 1 (by decide) (by decide) rfl

/-! ## C4: name uniqueness -/

/-- An empty validation result on create means no stored record carries the
submitted name. -/
theorem validateBody_nil_create (store : List ReportModel) (u : String)
    (isAdmin : String → String → Bool) (body : ReportModelBody)
    (h : validateBody store u isAdmin body none = []) :
    ∀ r ∈ store, r.name ≠ body.name := by
  intro r hr heq
  unfold validateBody at h
  rw [List.append_eq_nil] at h
  obtain ⟨h1, _⟩ := h
  by_cases hany : store.any (fun rm => rm.name == body.name &&
      (match (none : Option Nat) with | none => true | some i => rm.id != i)) = true
  · rw [if_pos hany] at h1; cases h1
  · rw [Bool.not_eq_true, List.any_eq_false] at hany
    exact hany r hr (by simp [heq])

/-- An empty validation result on update means the submitted name is carried
by no stored record other than the one being updated. -/
theorem validateBody_nil_update (store : List ReportModel) (u : String)
    (isAdmin : String → String → Bool) (body : ReportModelBody) (id : Nat)
    (h : validateBody store u isAdmin body (some id) = []) :
    ∀ r ∈ store, r.name = body.name → r.id = id := by
  intro r hr heq
  by_contra hne
  unfold validateBody at h
  rw [List.append_eq_nil] at h
  obtain ⟨h1, _⟩ := h
  by_cases hany : store.any (fun rm => rm.name == body.name &&
      (match (some id : Option Nat) with | none => true | some i => rm.id != i)) = true
  · rw [if_pos hany] at h1; cases h1
  · rw [Bool.not_eq_true, List.any_eq_false] at hany
    exact hany r hr (by simp [heq, hne])

/-- A create whose submitted name some stored record already carries
produces a field error named name. -/
theorem validateBody_duplicate_name (store : List ReportModel) (u : String)
    (isAdmin : String → String → Bool) (body : ReportModelBody)
    (r : ReportModel) (hr : r ∈ store) (hname : r.name = body.name) :
    ∃ e ∈ validateBody store u isAdmin body none, e.name = "name" := by
  refine ⟨⟨"name", "Report model named " ++ body.name ++ " already exists."⟩,
    ?_, rfl⟩
  unfold validateBody
  have hany : store.any (fun rm => rm.name == body.name &&
      (match (none : Option Nat) with | none => true | some i => rm.id != i))
      = true :=
    List.any_eq_true.mpr ⟨r, hr, by simp [hname]⟩
  rw [if_pos hany]
  simp

/-- Replacing the record of a given primary key by one carrying that key
preserves distinctness of names, provided the new name is carried by no
record of a different key. -/
theorem nodup_names_after_replace (store : List ReportModel) (id : Nat)
    (u : ReportModel)
    (hids : (store.map (fun r => r.id)).Nodup)
    (hnames : (store.map (fun r => r.name)).Nodup)
    (hunique : ∀ r ∈ store, r.name = u.name → r.id = id) :
    ((store.map (fun r => if r.id == id then u else r)).map
      (fun r => r.name)).Nodup := by
  rw [List.map_map]
  refine List.Nodup.map_on ?_ (List.Nodup.of_map _ hids)
  intro x hx y hy hxy
  simp only [Function.comp] at hxy
  by_cases cx : x.id = id <;> by_cases cy : y.id = id
  · exact List.inj_on_of_nodup_map hids hx hy (by rw [cx, cy])
  · have h1 : (x.id == id) = true := beq_iff_eq.mpr cx
    have h2 : (y.id == id) = false := by simpa using cy
    rw [h1, h2] at hxy
    simp at hxy
    exact absurd (hunique y hy hxy.symm) cy
  · have h1 : (x.id == id) = false := by simpa using cx
    have h2 : (y.id == id) = true := beq_iff_eq.mpr cy
    rw [h1, h2] at hxy
    simp at hxy
    exact absurd (hunique x hx hxy) cx
  · have h1 : (x.id == id) = false := by simpa using cx
    have h2 : (y.id == id) = false := by simpa using cy
    rw [h1, h2] at hxy
    simp at hxy
    exact List.inj_on_of_nodup_map hnames hx hy hxy

/-- Every request of the pipeline preserves distinctness of the stored
names, provided primary keys are pairwise distinct. -/
theorem names_nodup_preserved (store : List ReportModel) (ctx : ReqCtx)
    (isAdmin : String → String → Bool) (req : Req)
    (hids : (store.map (fun r => r.id)).Nodup)
    (hnames : (store.map (fun r => r.name)).Nodup) :
    (((handleRequest store ctx isAdmin req).2).map (fun r => r.name)).Nodup := by
  have hvalidated : ∀ id?,
      (((validatedStep store ctx isAdmin id? req).2).map (fun r => r.name)).Nodup := by
    intro id?
    cases req with
    | collectionGet => simpa [validatedStep, runHandler] using hnames
    | itemGet s =>
        cases id? with
        | none => simpa [validatedStep, runHandler] using hnames
        | some id =>
            cases hg : getObject store id <;>
              simpa [validatedStep, runHandler, hg] using hnames
    | tjsPost s =>
        cases id? with
        | none => simpa [validatedStep, runHandler] using hnames
        | some id =>
            cases hg : getObject store id <;>
              simpa [validatedStep, runHandler, hg] using hnames
    | itemDelete s =>
        cases id? with
        | none => simpa [validatedStep, runHandler] using hnames
        | some id =>
            cases hg : getObject store id with
            | error e => simpa [validatedStep, runHandler, hg] using hnames
            | ok rm =>
                simp only [validatedStep, runHandler, hg]
                exact List.Nodup.sublist
                  ((List.eraseP_sublist store).map (fun r => r.name)) hnames
    | collectionPost body =>
        cases hv : validateBody store ctx.userid isAdmin body none with
        | cons e rest => simpa [validatedStep, hv] using hnames
        | nil =>
            simp only [validatedStep, hv, runHandler]
            have hnew := validateBody_nil_create store ctx.userid isAdmin body hv
            rw [List.map_append, List.nodup_append]
            refine ⟨hnames, by simp, ?_⟩
            intro a ha hb
            rcases List.mem_map.mp ha with ⟨r, hr, hra⟩
            have hb2 : a = (newRecord ctx body).name := by simpa using hb
            exact hnew r hr (by rw [hra, hb2]; rfl)
    | itemPut s body =>
        cases id? with
        | none =>
            cases hv : validateBody store ctx.userid isAdmin body none with
            | cons e rest => simpa [validatedStep, hv] using hnames
            | nil => simpa [validatedStep, hv, runHandler] using hnames
        | some id =>
            cases hv : validateBody store ctx.userid isAdmin body (some id) with
            | cons e rest => simpa [validatedStep, hv] using hnames
            | nil =>
                cases hg : getObject store id with
                | error e => simpa [validatedStep, hv, runHandler, hg] using hnames
                | ok rm =>
                    simp only [validatedStep, hv, runHandler, hg]
                    exact nodup_names_after_replace store id
                      (updatedRecord ctx body rm) hids hnames
                      (validateBody_nil_update store ctx.userid isAdmin body id hv)
  have hacl : ∀ id?,
      (((aclStep store ctx isAdmin id? req).2).map (fun r => r.name)).Nodup := by
    intro id?
    rw [aclStep]
    cases computeAcl store id? ctx isAdmin with
    | error e => simpa using hnames
    | ok acl =>
        by_cases hp : permits acl ctx.principals req.permission = true
        · simpa [hp] using hvalidated id?
        · rw [Bool.not_eq_true] at hp
          simpa [hp] using hnames
  cases hpath : req.pathId with
  | none => simpa [handleRequest, hpath] using hacl none
  | some s =>
      cases hu : pythonUUID s with
      | none => simpa [handleRequest, hpath, hu] using hnames
      | some id => simpa [handleRequest, hpath, hu] using hacl (some id)

/-- C4: a validated create succeeds with 201, and a second create carrying
the same name then fails with a 400 field error named name, creating
nothing; moreover every request of the pipeline preserves distinctness of
the stored names (primary keys being pairwise distinct), so name uniqueness
holds after every write. -/
theorem name_uniqueness_enforced (store : List ReportModel) (ctx₁ ctx₂ : ReqCtx)
    (isAdmin : String → String → Bool) (body₁ body₂ : ReportModelBody)
    (hrole₁ : "ROLE_REPORTS_ADMIN" ∈ ctx₁.principals)
    (hrole₂ : "ROLE_REPORTS_ADMIN" ∈ ctx₂.principals)
    (hsame : body₂.name = body₁.name)
    (hval : validateBody store ctx₁.userid isAdmin body₁ none = []) :
    handleRequest store ctx₁ isAdmin (Req.collectionPost body₁)
      = (Outcome.success 201 (some (newRecord ctx₁ body₁)),
         store ++ [newRecord ctx₁ body₁]) ∧
    (handleRequest (store ++ [newRecord ctx₁ body₁]) ctx₂ isAdmin
        (Req.collectionPost body₂)
      = (Outcome.badRequest (validateBody (store ++ [newRecord ctx₁ body₁])
          ctx₂.userid isAdmin body₂ none), store ++ [newRecord ctx₁ body₁]) ∧
      ∃ e ∈ validateBody (store ++ [newRecord ctx₁ body₁]) ctx₂.userid isAdmin
          body₂ none, e.name = "name") ∧
    (∀ store' ctx req, ((store' : List ReportModel).map (fun r => r.id)).Nodup →
      (store'.map (fun r => r.name)).Nodup →
      (((handleRequest store' ctx isAdmin req).2).map (fun r => r.name)).Nodup) := by
  have hmem : newRecord ctx₁ body₁ ∈ store ++ [newRecord ctx₁ body₁] := by simp
  have herr := validateBody_duplicate_name (store ++ [newRecord ctx₁ body₁])
    ctx₂.userid isAdmin body₂ (newRecord ctx₁ body₁) hmem hsame.symm
  have hne : validateBody (store ++ [newRecord ctx₁ body₁]) ctx₂.userid isAdmin
      body₂ none ≠ [] := by
    intro hnil
    obtain ⟨e, he, _⟩ := herr
    rw [hnil] at he
    cases he
  refine ⟨?_, ⟨?_, herr⟩, ?_⟩
  · have hperm : permits staticAcl ctx₁.principals "add" = true := by
      simp [permits, staticAcl, hrole₁]
    simp [handleRequest, Req.pathId, aclStep, computeAcl, Req.permission, hperm,
      validatedStep, hval, runHandler]
  · have hperm : permits staticAcl ctx₂.principals "add" = true := by
      simp [permits, staticAcl, hrole₂]
    rw [handleRequest]
    simp only [Req.pathId]
    rw [aclStep]
    simp only [computeAcl, Req.permission, hperm, Bool.not_true, Bool.false_eq_true,
      if_false]
    exact validatedStep_badRequest_post (store ++ [newRecord ctx₁ body₁]) ctx₂
      isAdmin body₂ none hne
  · intro store' ctx req h1 h2
    exact names_nodup_preserved store' ctx isAdmin req h1 h2

/-- Witness for the name-uniqueness theorem: two creates of the body named
new on the initially empty store. -/
theorem name_uniqueness_enforced_witness :
    handleRequest [] exCtxAdmin exOracle (Req.collectionPost exBody)
      = (Outcome.success 201 (some (newRecord exCtxAdmin exBody)),
         [] ++ [newRecord exCtxAdmin exBody]) ∧
    (handleRequest ([] ++ [newRecord exCtxAdmin exBody]) exCtxAdmin exOracle
        (Req.collectionPost exBody)
      = (Outcome.badRequest (validateBody ([] ++ [newRecord exCtxAdmin exBody])
          exCtxAdmin.userid exOracle exBody none),
         [] ++ [newRecord exCtxAdmin exBody]) ∧
      ∃ e ∈ validateBody ([] ++ [newRecord exCtxAdmin exBody]) exCtxAdmin.userid
          exOracle exBody none, e.name = "name") ∧
    (∀ store' ctx req, ((store' : List ReportModel).map (fun r => r.id)).Nodup →
      (store'.map (fun r => r.name)).Nodup →
      (((handleRequest store' ctx exOracle req).2).map (fun r => r.name)).Nodup) :=
  name_uniqueness_enforced [] exCtxAdmin exCtxAdmin exOracle exBody exBody
    (by decide) (by decide) rfl rfl

/-- Witness for the malformed-uuid theorem at the segment not-a-uuid. -/
theorem malformed_uuid_yields_500_witness :
    handleRequest exStore exCtxAdmin exOracle (Req.itemGet "not-a-uuid")
      = (Outcome.failure 500, exStore) ∧
    handleRequest exStore exCtxAdmin exOracle
        (Req.itemPut "not-a-uuid" ⟨"new", "layerA", "doc"⟩)
      = (Outcome.failure 500, exStore) ∧
    handleRequest exStore exCtxAdmin exOracle (Req.itemDelete "not-a-uuid")
      = (Outcome.failure 500, exStore) ∧
    handleRequest exStore exCtxAdmin exOracle (Req.tjsPost "not-a-uuid")
      = (Outcome.failure 500, exStore) ∧
    Outcome.failure 500 ≠ Outcome.failure 404 ∧
    (∀ errs, Outcome.failure 500 ≠ Outcome.badRequest errs) :=
  malformed_uuid_yields_500 exStore exCtxAdmin exOracle "not-a-uuid"
    ⟨"new", "layerA", "doc"⟩ (by decide)

end DrealcorseReports
